import Mathlib

/-!
Verification of the dispatch and collection layer of mlens
(src/mlens/parallel/fit_predict.py), via a shallow embedding.

Modelling conventions:
- Python exceptions are modelled by the error side of Except, with an
  inductive PyErr distinguishing KeyError, IndexError and ValueError.
- A Python dict is an insertion-ordered association list; subscript lookup
  raises KeyError when the key is absent.
- A data tuple is a List whose final element is the case key (tup[-1]
  raises IndexError on an empty tuple).
- The imported collaborators (_fit_score, _fit_predict_base, _predict_base,
  _predict, _fit_estimator, _construct_matrix, DataFrame) are opaque
  capabilities of the callers; they are passed in as function parameters.
- joblib Parallel returns results in submission order irrespective of
  n_jobs and verbose, so the denotation of a dispatched generator is the
  serial left-to-right evaluation; n_jobs and verbose are carried as
  parameters with no effect on the value, matching that guarantee.
-/

namespace MLens

/-- The Python exceptions that the module under study can raise. -/
inductive PyErr where
  | keyError
  | indexError
  | valueError
  deriving DecidableEq, Repr

instance {e a : Type _} [DecidableEq e] [DecidableEq a] : DecidableEq (Except e a) := fun x y =>
  match x, y with
  | .ok u, .ok v =>
      if h : u = v then .isTrue (by rw [h]) else .isFalse (by simp [h])
  | .ok _, .error _ => .isFalse (by simp)
  | .error _, .ok _ => .isFalse (by simp)
  | .error u, .error v =>
      if h : u = v then .isTrue (by rw [h]) else .isFalse (by simp [h])

/-- Python tup[-1]: the last element of a sequence; IndexError when empty. -/
def lastElem {β : Type _} (tup : List β) : Except PyErr β :=
  match tup.getLast? with
  | some k => .ok k
  | none => .error .indexError

/-- Insertion-ordered association-list lookup, the Option-valued core of a
Python dict read. -/
def alookup {κ v : Type _} [DecidableEq κ] : List (κ × v) → κ → Option v
  | [], _ => none
  | (k, x) :: rest, key => if key = k then some x else alookup rest key

/-- Python d[key] on a dict: KeyError when the key is absent. -/
def dictGet {κ v : Type _} [DecidableEq κ] (d : List (κ × v)) (key : κ) : Except PyErr v :=
  match alookup d key with
  | some x => .ok x
  | none => .error .keyError

/-- The job list generated by the double generator inside
_parallel_estimation, evaluated tuple-major and estimator-minor, with the
left-to-right error propagation of the Python generator: looking up
tup[-1] in estimator_cases raises KeyError on an absent case key, and
tup[-1] itself raises IndexError on an empty tuple. -/
def dispatchLoop {α β ε ρ : Type _} [DecidableEq β]
    (function : α → List β → ε → ρ) (add_input : α)
    (estimator_cases : List (β × List ε)) :
    List (List β) → Except PyErr (List ρ)
  | [] => .ok []
  | tup :: rest =>
      match lastElem tup with
      | .error e => .error e
      | .ok k =>
        match dictGet estimator_cases k with
        | .error e => .error e
        | .ok ests =>
          match dispatchLoop function add_input estimator_cases rest with
          | .error e => .error e
          | .ok others =>
              .ok (ests.map (fun est => function add_input tup est) ++ others)

/-- Python _parallel_estimation(function, data, estimator_cases, optional_args,
n_jobs, verbose): one job per (data tuple, estimator) pair where the
estimator list is estimator_cases[tup[-1]], each job computing
function(add_input + (tup, est)).  add_input models the line
"optional_args if optional_args is not None else tuple()": the caller
passes Unit for the None default and the packed extra tuple otherwise,
and the work function receives it as its first component.  n_jobs and
verbose are forwarded to joblib and do not affect the result value. -/
def _parallel_estimation {α β ε ρ : Type _} [DecidableEq β]
    (function : α → List β → ε → ρ)
    (data : List (List β)) (estimator_cases : List (β × List ε))
    (add_input : α) (n_jobs : Int) (verbose : Bool) : Except PyErr (List ρ) :=
  dispatchLoop function add_input estimator_cases data

/-- The length of zip(*out) for a list of result tuples: zero when out is
empty, otherwise the minimum arity among the tuples. -/
def zipLen {ν : Type _} : List (List ν) → Nat
  | [] => 0
  | r :: rs => rs.foldl (fun m s => Nat.min m s.length) r.length

/-- The first components of the result tuples: after transposition by
zip(*out), the tuple bound to case_est_names. -/
def resultNames {ν : Type _} (out : List (List ν)) : List ν :=
  out.filterMap List.head?

/-- Python _pre_check_estimators(out, case_est_base_columns): tries the
three-element unpacking case_est_names, _, _ = zip(*out), which succeeds
exactly when zip(*out) has length three; on the resulting ValueError it
falls back to the two-element unpacking, which succeeds exactly when
zip(*out) has length two; any other length raises ValueError.  It then
keeps, in order, the candidate columns whose name occurs among the first
components of the result tuples. -/
def _pre_check_estimators {ν : Type _} [DecidableEq ν]
    (out : List (List ν)) (case_est_base_columns : List ν) : Except PyErr (List ν) :=
  if zipLen out = 3 ∨ zipLen out = 2 then
    .ok (case_est_base_columns.filter (fun ce => decide (ce ∈ resultNames out)))
  else
    .error .valueError

/-- Tags for the three imported prediction work functions that
base_predict chooses between. -/
inductive PredFn where
  | fit_predict_base
  | predict_base
  | predict
  deriving DecidableEq, Repr

/-- The external collaborators of base_predict: the three prediction work
functions (each receiving the unpacked (tup, est) payload and returning a
result tuple), _construct_matrix, and the DataFrame wrapper used when
as_df is set.  M is the type of the assembled matrix or frame. -/
structure Externals (β ε ν M : Type _) where
  fit_predict_base : List β → ε → List ν
  predict_base : List β → ε → List ν
  predict : List β → ε → List ν
  construct_matrix : List (List ν) → Nat → List ν → Bool → M
  dataFrame : M → List ν → M

/-- The prediction-case selection at the top of base_predict: folded
predictions with fitting select _fit_predict_base, folded predictions
without fitting select _predict_base, and unfolded predictions select
_predict. -/
def base_predict_function (folded_preds fit : Bool) : PredFn :=
  if folded_preds then
    if fit then .fit_predict_base else .predict_base
  else
    .predict

/-- Resolve a selection tag to the corresponding external work function. -/
def applyPredFn {β ε ν M : Type _} (E : Externals β ε ν M) :
    PredFn → List β → ε → List ν
  | .fit_predict_base => E.fit_predict_base
  | .predict_base => E.predict_base
  | .predict => E.predict

/-- base_predict(data, estimator_cases, n, folded_preds, fit, columns,
as_df, n_jobs, verbose): selects the work function, dispatches through
_parallel_estimation with no optional arguments, filters the candidate
columns through _pre_check_estimators, assembles the matrix with
_construct_matrix, optionally wraps it as a DataFrame labelled with the
fitted estimator names, and returns the matrix together with those
names. -/
def base_predict {β ε ν M : Type _} [DecidableEq β] [DecidableEq ν]
    (E : Externals β ε ν M)
    (data : List (List β)) (estimator_cases : List (β × List ε)) (n : Nat)
    (folded_preds fit : Bool) (columns : List ν) (as_df : Bool)
    (n_jobs : Int) (verbose : Bool) : Except PyErr (M × List ν) :=
  match _parallel_estimation
      (fun (_ : Unit) tup est =>
        applyPredFn E (base_predict_function folded_preds fit) tup est)
      data estimator_cases () n_jobs verbose with
  | .error e => .error e
  | .ok out =>
    match _pre_check_estimators out columns with
    | .error e => .error e
    | .ok fitted_estimators =>
        let M0 := E.construct_matrix out n fitted_estimators folded_preds
        let M1 := if as_df then E.dataFrame M0 fitted_estimators else M0
        .ok (M1, fitted_estimators)

/-- Python dict insert-or-append used by the grouping loop of
fit_estimators: if the case key is present, append to its list in place;
otherwise add a fresh singleton entry at the end. -/
def dictAppend {κ v : Type _} [DecidableEq κ] :
    List (κ × List v) → κ → v → List (κ × List v)
  | [], key, x => [(key, [x])]
  | (k, l) :: rest, key, x =>
      if key = k then (k, l ++ [x]) :: rest
      else (k, l) :: dictAppend rest key x

/-- One iteration of the grouping loop of fit_estimators: a result whose
estimator name is None is dropped, any other result has its (name, model)
pair appended under its case key. -/
def fitStep {κc σ μ : Type _} [DecidableEq κc]
    (d : List (κc × List (σ × μ))) (r : κc × Option σ × μ) :
    List (κc × List (σ × μ)) :=
  match r with
  | (case, some est_name, est) => dictAppend d case (est_name, est)
  | (_, none, _) => d

/-- The grouping loop of fit_estimators applied to a dispatch result list:
results whose estimator name is None are dropped, the rest are appended
under their case key in result order, starting from the empty dict. -/
def groupFitted {κc σ μ : Type _} [DecidableEq κc]
    (out : List (κc × Option σ × μ)) : List (κc × List (σ × μ)) :=
  out.foldl fitStep []

/-- fit_estimators(data, y, estimator_cases, n_jobs, verbose): dispatches
the external _fit_estimator work function with (y,) as the optional
argument tuple, so each job computes fit_estimator(y, tup, est), then
groups the successfully fitted (name, model) pairs by case key, dropping
results whose estimator name is None. -/
def fit_estimators {β ε κc σ μ υ : Type _} [DecidableEq β] [DecidableEq κc]
    (fit_estimator : υ → List β → ε → κc × Option σ × μ)
    (data : List (List β)) (y : υ) (estimator_cases : List (β × List ε))
    (n_jobs : Int) (verbose : Bool) : Except PyErr (List (κc × List (σ × μ))) :=
  match _parallel_estimation (fun yy tup est => fit_estimator yy tup est)
      data estimator_cases y n_jobs verbose with
  | .error e => .error e
  | .ok out => .ok (groupFitted out)

/-- The inner two generator clauses of cross_validate for one fold: loop
over the estimators in insertion order and, for each, over the enumerated
parameter sets of param_sets[est_name], which raises KeyError when the
estimator name is absent. -/
def cvInner {ε σ π δd S ρ : Type _} [DecidableEq σ]
    (fit_score : ε → σ → π → S → δd → Nat → Int → ρ)
    (param_sets : List (σ × List π)) (scoring : S) (tup : δd)
    (error_score : Int) : List (σ × ε) → Except PyErr (List ρ)
  | [] => .ok []
  | (est_name, est) :: rest =>
      match dictGet param_sets est_name with
      | .error e => .error e
      | .ok ps =>
        match cvInner fit_score param_sets scoring tup error_score rest with
        | .error e => .error e
        | .ok others =>
            .ok (ps.enum.map
              (fun ip => fit_score est est_name ip.2 scoring tup ip.1 error_score) ++ others)

/-- The outer generator clause of cross_validate: loop over the folds. -/
def cvOuter {ε σ π δd S ρ : Type _} [DecidableEq σ]
    (fit_score : ε → σ → π → S → δd → Nat → Int → ρ)
    (estimators : List (σ × ε)) (param_sets : List (σ × List π))
    (scoring : S) (error_score : Int) : List δd → Except PyErr (List ρ)
  | [] => .ok []
  | tup :: rest =>
      match cvInner fit_score param_sets scoring tup error_score estimators with
      | .error e => .error e
      | .ok inner =>
        match cvOuter fit_score estimators param_sets scoring error_score rest with
        | .error e => .error e
        | .ok others => .ok (inner ++ others)

/-- cross_validate(estimators, param_sets, dout, scoring, error_score,
n_jobs, verbose): one job per (fold, estimator, parameter set) triple,
enumerated fold-major, then in estimator insertion order, then in
parameter-set list order with its index; the job computes
fit_score(est, est_name, params, scoring, tup, i, error_score) through
the external _fit_score.  Looking up param_sets[est_name] raises KeyError
when an estimator name is absent from param_sets; n_jobs and verbose are
forwarded to joblib and do not affect the result value. -/
def cross_validate {ε σ π δd S ρ : Type _} [DecidableEq σ]
    (fit_score : ε → σ → π → S → δd → Nat → Int → ρ)
    (estimators : List (σ × ε)) (param_sets : List (σ × List π))
    (dout : List δd) (scoring : S) (error_score : Int)
    (n_jobs : Int) (verbose : Bool) : Except PyErr (List ρ) :=
  cvOuter fit_score estimators param_sets scoring error_score dout

/-- The estimator list that dispatch associates with a data tuple, as a
total function: the lookup of tup[-1] in the case mapping, defaulting to
the empty list when the tuple is empty or the key absent. -/
def estsOf {β ε : Type _} [DecidableEq β]
    (estimator_cases : List (β × List ε)) (tup : List β) : List ε :=
  (tup.getLast?.bind (fun k => alookup estimator_cases k)).getD []

/-- The per-case successful entries of a dispatch result list, in result
order: the (name, model) pairs of the results carrying this case key and
a non-None estimator name. -/
def groupSpec {κc σ μ : Type _} [DecidableEq κc]
    (out : List (κc × Option σ × μ)) (k : κc) : List (σ × μ) :=
  out.filterMap (fun r =>
    match r with
    | (case, some est_name, est) => if case = k then some (est_name, est) else none
    | (_, none, _) => none)

/-- The parameter-set list that cross_validate associates with an
estimator name, as a total function defaulting to the empty list. -/
def psOf {σ π : Type _} [DecidableEq σ]
    (param_sets : List (σ × List π)) (name : σ) : List π :=
  (alookup param_sets name).getD []

/-- When every data tuple has a case key that the mapping covers, the
dispatch loop succeeds and returns the flattened tuple-major,
estimator-minor job results. -/
theorem dispatchLoop_eq_flatMap {α β ε ρ : Type _} [DecidableEq β]
    (f : α → List β → ε → ρ) (a : α) (m : List (β × List ε))
    (data : List (List β))
    (h : ∀ tup ∈ data, (tup.getLast?.bind (fun k => alookup m k)).isSome) :
    dispatchLoop f a m data =
      .ok (data.flatMap (fun tup => (estsOf m tup).map (fun est => f a tup est))) := by
  induction data with
  | nil => rfl
  | cons tup rest ih =>
      have htup := h tup (List.mem_cons_self _ _)
      have hrest : ∀ t ∈ rest, (t.getLast?.bind (fun k => alookup m k)).isSome :=
        fun t ht => h t (List.mem_cons_of_mem _ ht)
      cases hk : tup.getLast? with
      | none => rw [hk] at htup; simp at htup
      | some k =>
          cases hek : alookup m k with
          | none => rw [hk] at htup; simp [hek] at htup
          | some ests =>
              simp [dispatchLoop, lastElem, hk, dictGet, hek, ih hrest, estsOf]

/-- Claim C1: for every list of data tuples and every case-to-estimator
mapping that contains the case key of each tuple, _parallel_estimation
returns exactly sum(len(estimator_cases[tup[-1]]) for tup in data)
results, ordered tuple-major (data tuples in input order) and
estimator-minor (estimators in the mapping list order), the result at
each position being the work function applied to the optional arguments
followed by the (tuple, estimator) pair. -/
theorem parallel_estimation_count_order {α β ε ρ : Type _} [DecidableEq β]
    (f : α → List β → ε → ρ) (a : α) (data : List (List β))
    (m : List (β × List ε)) (nj : Int) (v : Bool)
    (h : ∀ tup ∈ data, (tup.getLast?.bind (fun k => alookup m k)).isSome) :
    _parallel_estimation f data m a nj v =
      .ok (data.flatMap (fun tup => (estsOf m tup).map (fun est => f a tup est))) ∧
    (data.flatMap (fun tup => (estsOf m tup).map (fun est => f a tup est))).length
      = (data.map (fun tup => (estsOf m tup).length)).sum := by
  refine ⟨dispatchLoop_eq_flatMap f a m data h, ?_⟩
  clear h
  induction data with
  | nil => rfl
  | cons tup rest ih => simp [List.flatMap_cons, ih, Function.comp]

/-- Witness for parallel_estimation_count_order at a concrete input: two
tuples with case keys 1 and 2, the first case carrying one estimator and
the second two. -/
theorem parallel_estimation_count_order_witness :
    _parallel_estimation (fun (a : Nat) (tup : List Nat) (e : Nat) => (a, tup, e))
        [[1], [2]] [(1, [10]), (2, [20, 21])] 5 (-1) false =
      .ok ([[1], [2]].flatMap (fun tup =>
        (estsOf [(1, [10]), (2, [20, 21])] tup).map (fun est => ((5 : Nat), tup, est)))) ∧
    ([[1], [2]].flatMap (fun tup =>
        (estsOf [(1, [10]), (2, [20, 21])] tup).map (fun est => ((5 : Nat), tup, est)))).length
      = ([[1], [2]].map (fun tup => (estsOf [(1, [10]), (2, [20, 21])] tup).length)).sum :=
  parallel_estimation_count_order _ 5 [[1], [2]] [(1, [10]), (2, [20, 21])] (-1) false
    (by decide)

/-- A list of uniform arity with at least one row has that arity as its
zip(*out) length. -/
theorem zipLen_uniform {ν : Type _} (out : List (List ν)) (a : Nat)
    (hne : out ≠ []) (h : ∀ r ∈ out, r.length = a) : zipLen out = a := by
  match out, hne with
  | r :: rs, _ =>
      have hr : r.length = a := h r (List.mem_cons_self _ _)
      have hstep : ∀ (l : List (List ν)), (∀ s ∈ l, s.length = a) →
          l.foldl (fun m s => Nat.min m s.length) a = a := by
        intro l
        induction l with
        | nil => intro _; rfl
        | cons s l ihl =>
            intro hl
            have hs : s.length = a := hl s (List.mem_cons_self _ _)
            simp only [List.foldl_cons, hs, Nat.min_self]
            exact ihl (fun t ht => hl t (List.mem_cons_of_mem _ ht))
      simp only [zipLen, hr]
      exact hstep rs (fun t ht => h t (List.mem_cons_of_mem _ ht))

/-- Claim C6: for every non-empty dispatch result list whose tuples all
have arity three, or all arity two, _pre_check_estimators succeeds: the
three-element unpacking is attempted first and covers the uniform arity
three case, and the fallback two-element unpacking covers the uniform
arity two case, the name component being extracted either way. -/
theorem pre_check_estimators_arity {ν : Type _} [DecidableEq ν]
    (out : List (List ν)) (cols : List ν) (hne : out ≠ [])
    (h : (∀ r ∈ out, r.length = 3) ∨ (∀ r ∈ out, r.length = 2)) :
    _pre_check_estimators out cols =
      .ok (cols.filter (fun ce => decide (ce ∈ resultNames out))) := by
  cases h with
  | inl h3 =>
      have hz : zipLen out = 3 := zipLen_uniform out 3 hne h3
      simp [_pre_check_estimators, hz]
  | inr h2 =>
      have hz : zipLen out = 2 := zipLen_uniform out 2 hne h2
      simp [_pre_check_estimators, hz]

/-- Witness for pre_check_estimators_arity at a concrete input: two
arity-three result tuples with names 10 and 11, filtered against the
candidate columns 11, 10, 99. -/
theorem pre_check_estimators_arity_witness :
    _pre_check_estimators [[10, 7, 7], [11, 8, 8]] [11, 10, 99] =
      .ok ([11, 10, 99].filter (fun ce => decide (ce ∈ resultNames [[10, 7, 7], [11, 8, 8]]))) :=
  pre_check_estimators_arity [[10, 7, 7], [11, 8, 8]] [11, 10, 99] (by decide)
    (Or.inl (by decide))

/-- Claim C7: base_predict selects the dispatched work function purely
from the two flags: folded_preds and fit select _fit_predict_base, folded
predictions without fit select _predict_base, and unfolded predictions
select _predict whatever the value of fit. -/
theorem base_predict_function_selection :
    base_predict_function true true = PredFn.fit_predict_base ∧
    base_predict_function true false = PredFn.predict_base ∧
    base_predict_function false true = PredFn.predict ∧
    base_predict_function false false = PredFn.predict :=
  ⟨rfl, rfl, rfl, rfl⟩

/-- Claim C8: with concurrency fixed to one worker, each orchestrator is
deterministic: two calls with identical inputs return identical values.
In this embedding the orchestrators are pure functions of their inputs,
which is exactly the joblib guarantee that results arrive in submission
order irrespective of scheduling. -/
theorem orchestrators_deterministic {β ε ν M κc σ μ υ sσ sε sπ sδ sS sρ : Type _}
    [DecidableEq β] [DecidableEq ν] [DecidableEq κc] [DecidableEq sσ]
    (E : Externals β ε ν M) (data : List (List β))
    (estimator_cases : List (β × List ε)) (n : Nat) (fp ft : Bool)
    (cols : List ν) (asdf : Bool) (v : Bool)
    (fe : υ → List β → ε → κc × Option σ × μ) (y : υ)
    (fs : sε → sσ → sπ → sS → sδ → Nat → Int → sρ)
    (estimators : List (sσ × sε)) (param_sets : List (sσ × List sπ))
    (dout : List sδ) (scoring : sS) (error_score : Int) :
    base_predict E data estimator_cases n fp ft cols asdf 1 v =
      base_predict E data estimator_cases n fp ft cols asdf 1 v ∧
    fit_estimators fe data y estimator_cases 1 v =
      fit_estimators fe data y estimator_cases 1 v ∧
    cross_validate fs estimators param_sets dout scoring error_score 1 v =
      cross_validate fs estimators param_sets dout scoring error_score 1 v :=
  ⟨rfl, rfl, rfl⟩

/-- Claim C9: whenever the dispatch step of base_predict yields an empty
result list, for example on an empty data list, base_predict raises the
ValueError of the column pre-filtering step instead of returning an empty
matrix with an empty column list. -/
theorem base_predict_empty_dispatch {β ε ν M : Type _} [DecidableEq β] [DecidableEq ν]
    (E : Externals β ε ν M) (data : List (List β))
    (estimator_cases : List (β × List ε)) (n : Nat) (fp ft : Bool)
    (cols : List ν) (asdf : Bool) (nj : Int) (v : Bool)
    (h : _parallel_estimation
        (fun (_ : Unit) tup est => applyPredFn E (base_predict_function fp ft) tup est)
        data estimator_cases () nj v = .ok []) :
    base_predict E data estimator_cases n fp ft cols asdf nj v = .error .valueError := by
  simp only [base_predict, h, _pre_check_estimators, zipLen]
  rfl

/-- Witness for base_predict_empty_dispatch at a concrete input: the empty
data list dispatches no job, so base_predict raises ValueError. -/
theorem base_predict_empty_dispatch_witness :
    base_predict
        (⟨fun _ e => [e], fun _ e => [e], fun _ e => [e], fun _ _ _ _ => (), fun m0 _ => m0⟩ :
          Externals Nat Nat Nat Unit)
        [] [(1, [10])] 4 true true [10] false (-1) false = .error .valueError :=
  base_predict_empty_dispatch _ [] [(1, [10])] 4 true true [10] false (-1) false rfl

/-- The dispatch loop skips a data tuple whose case key maps to the empty
estimator list: splicing such a tuple anywhere into the data list leaves
the result unchanged. -/
theorem dispatchLoop_skip_empty_case {α β ε ρ : Type _} [DecidableEq β]
    (f : α → List β → ε → ρ) (a : α) (m : List (β × List ε))
    (tup : List β) (k : β) (h1 : tup.getLast? = some k)
    (h2 : alookup m k = some []) (data1 data2 : List (List β)) :
    dispatchLoop f a m (data1 ++ tup :: data2) = dispatchLoop f a m (data1 ++ data2) := by
  induction data1 with
  | nil =>
      simp only [List.nil_append]
      cases hrest : dispatchLoop f a m data2 with
      | error e => simp [dispatchLoop, lastElem, h1, dictGet, h2, hrest]
      | ok others => simp [dispatchLoop, lastElem, h1, dictGet, h2, hrest]
  | cons t d1 ih =>
      simp only [List.cons_append, dispatchLoop, List.append_eq, ih]

/-- Claim C10: a data tuple whose case key maps to an empty estimator
list contributes zero jobs and zero results and raises no error: alone it
dispatches to the empty result list, and spliced into any data list it
leaves the remaining jobs and their results unchanged. -/
theorem dispatch_empty_estimator_list {α β ε ρ : Type _} [DecidableEq β]
    (f : α → List β → ε → ρ) (a : α) (m : List (β × List ε))
    (nj : Int) (v : Bool) (tup : List β) (k : β)
    (data1 data2 : List (List β))
    (h1 : tup.getLast? = some k) (h2 : alookup m k = some []) :
    _parallel_estimation f [tup] m a nj v = .ok [] ∧
    _parallel_estimation f (data1 ++ tup :: data2) m a nj v =
      _parallel_estimation f (data1 ++ data2) m a nj v := by
  constructor
  · simp [_parallel_estimation, dispatchLoop, lastElem, h1, dictGet, h2]
  · exact dispatchLoop_skip_empty_case f a m tup k h1 h2 data1 data2

/-- Witness for dispatch_empty_estimator_list at a concrete input: case
key 2 maps to the empty estimator list, so the tuple [2] contributes
nothing between the tuples [1] and [3]. -/
theorem dispatch_empty_estimator_list_witness :
    _parallel_estimation (fun (a : Nat) (tup : List Nat) (e : Nat) => (a, tup, e))
        [[2]] [(1, [10]), (2, []), (3, [30])] 0 (-1) false = .ok [] ∧
    _parallel_estimation (fun (a : Nat) (tup : List Nat) (e : Nat) => (a, tup, e))
        ([[1]] ++ [2] :: [[3]]) [(1, [10]), (2, []), (3, [30])] 0 (-1) false =
      _parallel_estimation (fun (a : Nat) (tup : List Nat) (e : Nat) => (a, tup, e))
        ([[1]] ++ [[3]]) [(1, [10]), (2, []), (3, [30])] 0 (-1) false :=
  dispatch_empty_estimator_list _ 0 [(1, [10]), (2, []), (3, [30])] (-1) false
    [2] 2 [[1]] [[3]] rfl rfl

/-- When param_sets covers every estimator name, the inner cross
validation loop over one fold succeeds and returns the estimator-major,
parameter-set-minor job results. -/
theorem cvInner_eq_flatMap {ε σ π δd S ρ : Type _} [DecidableEq σ]
    (fs : ε → σ → π → S → δd → Nat → Int → ρ)
    (param_sets : List (σ × List π)) (scoring : S) (tup : δd)
    (error_score : Int) (estimators : List (σ × ε))
    (h : ∀ p ∈ estimators, (alookup param_sets p.1).isSome) :
    cvInner fs param_sets scoring tup error_score estimators =
      .ok (estimators.flatMap (fun p => (psOf param_sets p.1).enum.map
        (fun ip => fs p.2 p.1 ip.2 scoring tup ip.1 error_score))) := by
  induction estimators with
  | nil => rfl
  | cons p rest ih =>
      obtain ⟨est_name, est⟩ := p
      have hp := h (est_name, est) (List.mem_cons_self _ _)
      cases heq : alookup param_sets est_name with
      | none => rw [heq] at hp; simp at hp
      | some ps =>
          have hrest := ih (fun q hq => h q (List.mem_cons_of_mem _ hq))
          simp [cvInner, dictGet, heq, hrest, psOf]

/-- When param_sets covers every estimator name, cross_validate succeeds
and returns the fold-major, estimator-mid, parameter-set-minor job
results. -/
theorem cvOuter_eq_flatMap {ε σ π δd S ρ : Type _} [DecidableEq σ]
    (fs : ε → σ → π → S → δd → Nat → Int → ρ)
    (estimators : List (σ × ε)) (param_sets : List (σ × List π))
    (scoring : S) (error_score : Int) (dout : List δd)
    (h : ∀ p ∈ estimators, (alookup param_sets p.1).isSome) :
    cvOuter fs estimators param_sets scoring error_score dout =
      .ok (dout.flatMap (fun tup => estimators.flatMap (fun p =>
        (psOf param_sets p.1).enum.map
          (fun ip => fs p.2 p.1 ip.2 scoring tup ip.1 error_score)))) := by
  induction dout with
  | nil => rfl
  | cons tup rest ih =>
      simp [cvOuter, cvInner_eq_flatMap fs param_sets scoring tup error_score estimators h, ih]

/-- Claim C2 counterexample: with one fold, two estimators and one
parameter set per estimator, cross_validate returns two result entries,
while the claimed formula len(folds) * len(estimators) *
sum(len(param_sets[name]) for name in estimators) demands four. -/
theorem cross_validate_count_claim_counterexample :
    cross_validate (fun (_ : Nat) (_ : Nat) (_ : Nat) (_ : Unit) (_ : Nat) (i : Nat) (_ : Int) => i)
        [(0, 100), (1, 101)] [(0, [5]), (1, [6])] [42] () (-99) (-1) false = .ok [0, 0] ∧
    ([0, 0] : List Nat).length ≠
      ([42] : List Nat).length * ([(0, 100), (1, 101)] : List (Nat × Nat)).length *
        (([(0, 100), (1, 101)] : List (Nat × Nat)).map
          (fun p => (psOf [(0, [5]), (1, [6])] p.1).length)).sum :=
  ⟨by decide, by decide⟩

/-- Claim C2 as amended: for every list of folds, every estimator mapping
and every param_sets mapping with an entry for each estimator name,
cross_validate returns exactly len(folds) * sum(len(param_sets[name]) for
name in estimators) result entries. -/
theorem cross_validate_count {ε σ π δd S ρ : Type _} [DecidableEq σ]
    (fs : ε → σ → π → S → δd → Nat → Int → ρ)
    (estimators : List (σ × ε)) (param_sets : List (σ × List π))
    (dout : List δd) (scoring : S) (error_score : Int) (nj : Int) (v : Bool)
    (h : ∀ p ∈ estimators, (alookup param_sets p.1).isSome) :
    ∃ l, cross_validate fs estimators param_sets dout scoring error_score nj v = .ok l ∧
      l.length = dout.length *
        (estimators.map (fun p => (psOf param_sets p.1).length)).sum := by
  refine ⟨_, cvOuter_eq_flatMap fs estimators param_sets scoring error_score dout h, ?_⟩
  have hinner : ∀ tup : δd, (estimators.flatMap (fun p =>
      (psOf param_sets p.1).enum.map
        (fun ip => fs p.2 p.1 ip.2 scoring tup ip.1 error_score))).length =
      (estimators.map (fun p => (psOf param_sets p.1).length)).sum := by
    intro tup
    clear h
    induction estimators with
    | nil => rfl
    | cons p rest ih => simp [List.flatMap_cons, ih, Function.comp]
  clear h
  induction dout with
  | nil => simp
  | cons tup rest ih =>
      simp only [List.flatMap_cons, List.length_append, hinner, ih, List.length_cons]
      ring

/-- Witness for cross_validate_count at a concrete input: one fold, two
estimators with one parameter set each, giving two result entries. -/
theorem cross_validate_count_witness :
    ∃ l, cross_validate
        (fun (_ : Nat) (_ : Nat) (_ : Nat) (_ : Unit) (_ : Nat) (i : Nat) (_ : Int) => i)
        [(0, 100), (1, 101)] [(0, [5]), (1, [6])] [42] () (-99) (-1) false = .ok l ∧
      l.length = ([42] : List Nat).length *
        (([(0, 100), (1, 101)] : List (Nat × Nat)).map
          (fun p => (psOf [(0, [5]), (1, [6])] p.1).length)).sum :=
  cross_validate_count _ [(0, 100), (1, 101)] [(0, [5]), (1, [6])] [42] () (-99) (-1) false
    (by decide)

/-- Whatever _pre_check_estimators returns successfully is the candidate
column list filtered, in its own order, to the names occurring among the
first components of the result tuples. -/
theorem pre_check_ok_eq_filter {ν : Type _} [DecidableEq ν]
    (out : List (List ν)) (cols fe : List ν)
    (h : _pre_check_estimators out cols = .ok fe) :
    fe = cols.filter (fun ce => decide (ce ∈ resultNames out)) := by
  unfold _pre_check_estimators at h
  split at h
  · cases h; rfl
  · cases h

/-- Claim C3: whenever base_predict succeeds, the fitted-estimator name
list it returns, which also labels its output columns, is the candidate
list filtered to the names appearing among the dispatch results, in the
original order of the candidate list; the arrival order of the dispatch
results never determines the column order. -/
theorem base_predict_column_order {β ε ν M : Type _} [DecidableEq β] [DecidableEq ν]
    (E : Externals β ε ν M) (data : List (List β))
    (estimator_cases : List (β × List ε)) (n : Nat) (fp ft : Bool)
    (cols : List ν) (asdf : Bool) (nj : Int) (v : Bool)
    (Mx : M) (fitted : List ν)
    (h : base_predict E data estimator_cases n fp ft cols asdf nj v = .ok (Mx, fitted)) :
    ∃ out, _parallel_estimation
        (fun (_ : Unit) tup est => applyPredFn E (base_predict_function fp ft) tup est)
        data estimator_cases () nj v = .ok out ∧
      fitted = cols.filter (fun ce => decide (ce ∈ resultNames out)) := by
  unfold base_predict at h
  cases hd : _parallel_estimation
      (fun (_ : Unit) tup est => applyPredFn E (base_predict_function fp ft) tup est)
      data estimator_cases () nj v with
  | error e => simp only [hd] at h; exact Except.noConfusion h
  | ok out =>
      simp only [hd] at h
      cases hp : _pre_check_estimators out cols with
      | error e => simp only [hp] at h; exact Except.noConfusion h
      | ok fe =>
          simp only [hp, Except.ok.injEq, Prod.mk.injEq] at h
          exact ⟨out, rfl, h.2 ▸ pre_check_ok_eq_filter out cols fe hp⟩

/-- Witness for base_predict_column_order at a concrete input: one data
tuple with case key 5 and two estimators named 10 and 11, checked against
the candidate columns 11, 10, 99: the returned names are 11 and 10 in
candidate order. -/
theorem base_predict_column_order_witness :
    ∃ out, _parallel_estimation
        (fun (_ : Unit) tup est => applyPredFn
          (⟨fun _ e => [e, 1, 1], fun _ e => [e, 2, 2], fun _ e => [e, 7, 7],
            fun _ _ _ _ => (), fun m0 _ => m0⟩ : Externals Nat Nat Nat Unit)
          (base_predict_function false false) tup est)
        [[5]] [(5, [10, 11])] () (-1) false = .ok out ∧
      ([11, 10] : List Nat) = [11, 10, 99].filter (fun ce => decide (ce ∈ resultNames out)) :=
  base_predict_column_order
    (⟨fun _ e => [e, 1, 1], fun _ e => [e, 2, 2], fun _ e => [e, 7, 7],
      fun _ _ _ _ => (), fun m0 _ => m0⟩ : Externals Nat Nat Nat Unit)
    [[5]] [(5, [10, 11])] 3 false false [11, 10, 99] false (-1) false () [11, 10] rfl

/-- Looking up any key after a dict insert-or-append: the inserted key
now carries its previous list extended by the new element, every other
key is untouched. -/
theorem alookup_dictAppend {κ v : Type _} [DecidableEq κ]
    (d : List (κ × List v)) (key k : κ) (x : v) :
    alookup (dictAppend d key x) k =
      if k = key then some ((alookup d key).getD [] ++ [x]) else alookup d k := by
  induction d with
  | nil => by_cases hk : k = key <;> simp [dictAppend, alookup, hk]
  | cons p rest ih =>
      obtain ⟨k1, l⟩ := p
      by_cases h1 : key = k1
      · subst h1
        by_cases h2 : k = key <;> simp [dictAppend, alookup, h2]
      · by_cases h2 : k = k1
        · subst h2
          have hne : ¬k = key := fun he => h1 (he ▸ rfl)
          simp [dictAppend, alookup, h1, hne]
        · simp [dictAppend, alookup, h1, h2, ih]

/-- The successful entries of a result list starting with a successful
result: the head entry joins its own case key and nothing else. -/
theorem groupSpec_cons_some {κc σ μ : Type _} [DecidableEq κc]
    (case : κc) (nm : σ) (est : μ) (rest : List (κc × Option σ × μ)) (k : κc) :
    groupSpec ((case, some nm, est) :: rest) k =
      if case = k then (nm, est) :: groupSpec rest k else groupSpec rest k := by
  by_cases h : case = k <;> simp [groupSpec, List.filterMap_cons, h]

/-- A result whose estimator name is None contributes to no case key. -/
theorem groupSpec_cons_none {κc σ μ : Type _} [DecidableEq κc]
    (case : κc) (est : μ) (rest : List (κc × Option σ × μ)) (k : κc) :
    groupSpec ((case, (none : Option σ), est) :: rest) k = groupSpec rest k := by
  simp [groupSpec, List.filterMap_cons]

/-- The grouping fold of fit_estimators, started from any dict: each key
ends up carrying its previous entries followed by the successful results
for that key in result order, and a fresh key appears exactly when it has
at least one successful result. -/
theorem alookup_foldl_fitStep {κc σ μ : Type _} [DecidableEq κc]
    (out : List (κc × Option σ × μ)) :
    ∀ (d : List (κc × List (σ × μ))) (k : κc),
    alookup (out.foldl fitStep d) k =
      match alookup d k with
      | some l => some (l ++ groupSpec out k)
      | none => if (groupSpec out k).isEmpty then none else some (groupSpec out k) := by
  induction out with
  | nil =>
      intro d k
      cases h : alookup d k <;> simp [groupSpec, h]
  | cons r rest ih =>
      intro d k
      obtain ⟨case, name?, est⟩ := r
      cases name? with
      | none =>
          simp only [List.foldl_cons, fitStep]
          rw [ih d k, groupSpec_cons_none]
      | some nm =>
          simp only [List.foldl_cons, fitStep]
          rw [ih (dictAppend d case (nm, est)) k, alookup_dictAppend d case k (nm, est),
            groupSpec_cons_some]
          by_cases hck : k = case
          · subst hck
            rw [if_pos rfl, if_pos rfl]
            cases halk : alookup d k with
            | none => simp [halk]
            | some l => simp [halk, List.append_assoc]
          · have hck2 : ¬case = k := fun he => hck (he ▸ rfl)
            rw [if_neg hck, if_neg hck2]

/-- A case key has successful entries exactly when some result carries
that key together with a non-None estimator name. -/
theorem groupSpec_ne_nil_iff {κc σ μ : Type _} [DecidableEq κc]
    (out : List (κc × Option σ × μ)) (k : κc) :
    groupSpec out k ≠ [] ↔ ∃ r ∈ out, r.1 = k ∧ r.2.1 ≠ none := by
  induction out with
  | nil => simp [groupSpec]
  | cons r rest ih =>
      obtain ⟨c, n?, mm⟩ := r
      cases n? with
      | none => simp [groupSpec_cons_none, ih]
      | some nm =>
          rw [groupSpec_cons_some]
          by_cases hck : c = k
          · simp [hck]
          · simp [hck, ih]

/-- Claim C4: the mapping returned by fit_estimators contains a case key
exactly when at least one dispatched result for that case has a non-None
estimator name; results whose name is None are dropped, no key is mapped
to an empty list, and the surviving (name, fitted model) pairs are
grouped under their case key in dispatch-result order. -/
theorem fit_estimators_grouping {β ε κc σ μ υ : Type _}
    [DecidableEq β] [DecidableEq κc]
    (fe : υ → List β → ε → κc × Option σ × μ)
    (data : List (List β)) (y : υ) (estimator_cases : List (β × List ε))
    (nj : Int) (v : Bool) (d : List (κc × List (σ × μ)))
    (h : fit_estimators fe data y estimator_cases nj v = .ok d) :
    ∃ out, _parallel_estimation (fun yy tup est => fe yy tup est)
        data estimator_cases y nj v = .ok out ∧
      (∀ k, (alookup d k).isSome ↔ ∃ r ∈ out, r.1 = k ∧ r.2.1 ≠ none) ∧
      (∀ k l, alookup d k = some l → l ≠ [] ∧ l = groupSpec out k) := by
  unfold fit_estimators at h
  cases hd : _parallel_estimation (fun yy tup est => fe yy tup est)
      data estimator_cases y nj v with
  | error e => simp only [hd] at h; exact Except.noConfusion h
  | ok out =>
      simp only [hd, Except.ok.injEq] at h
      subst h
      have hkey : ∀ k, alookup (groupFitted out) k =
          if (groupSpec out k).isEmpty then none else some (groupSpec out k) := by
        intro k
        have hstep := alookup_foldl_fitStep out [] k
        simpa [groupFitted, alookup] using hstep
      refine ⟨out, rfl, ?_, ?_⟩
      · intro k
        rw [hkey k]
        by_cases hemp : (groupSpec out k).isEmpty = true
        · have hnil : groupSpec out k = [] := by
            cases hgs : groupSpec out k with
            | nil => rfl
            | cons a l => rw [hgs] at hemp; exact Bool.noConfusion hemp
          rw [if_pos hemp, ← groupSpec_ne_nil_iff]
          simp [hnil]
        · have hnnil : groupSpec out k ≠ [] := by
            intro hnil
            rw [hnil] at hemp
            exact hemp rfl
          rw [if_neg hemp, ← groupSpec_ne_nil_iff]
          simp [hnnil]
      · intro k l hl
        rw [hkey k] at hl
        by_cases hemp : (groupSpec out k).isEmpty = true
        · rw [if_pos hemp] at hl
          exact Option.noConfusion hl
        · rw [if_neg hemp] at hl
          injection hl with hl2
          subst hl2
          refine ⟨?_, rfl⟩
          intro hnil
          rw [hnil] at hemp
          exact hemp rfl

/-- Witness for fit_estimators_grouping at a concrete input: two cases,
case 1 with estimators 10 and 99 where 99 fails to fit, case 2 with
estimator 20; the registry keeps (10, 1010) under key 1 and (20, 1020)
under key 2 and drops the failed result. -/
theorem fit_estimators_grouping_witness :
    ∃ out, _parallel_estimation
        (fun (yy : Nat) (tup : List Nat) (est : Nat) =>
          ((tup.getLast?.getD 0, if est = 99 then (none : Option Nat) else some est,
            est + yy) : Nat × Option Nat × Nat))
        [[1], [2]] [(1, [10, 99]), (2, [20])] 1000 (-1) false = .ok out ∧
      (∀ k, (alookup [(1, [(10, 1010)]), (2, [(20, 1020)])] k).isSome ↔
        ∃ r ∈ out, r.1 = k ∧ r.2.1 ≠ none) ∧
      (∀ k l, alookup [(1, [(10, 1010)]), (2, [(20, 1020)])] k = some l →
        l ≠ [] ∧ l = groupSpec out k) :=
  fit_estimators_grouping
    (fun (yy : Nat) (tup : List Nat) (est : Nat) =>
      ((tup.getLast?.getD 0, if est = 99 then (none : Option Nat) else some est,
        est + yy) : Nat × Option Nat × Nat))
    [[1], [2]] 1000 [(1, [10, 99]), (2, [20])] (-1) false
    [(1, [(10, 1010)]), (2, [(20, 1020)])] rfl

/-- When every data tuple is non-empty and at least one has a case key
absent from the mapping, the dispatch loop fails with KeyError. -/
theorem dispatchLoop_keyError {α β ε ρ : Type _} [DecidableEq β]
    (f : α → List β → ε → ρ) (a : α) (m : List (β × List ε))
    (data : List (List β))
    (h1 : ∀ tup ∈ data, tup.getLast?.isSome = true)
    (h2 : ∃ tup ∈ data, tup.getLast?.bind (fun k => alookup m k) = none) :
    dispatchLoop f a m data = .error .keyError := by
  induction data with
  | nil =>
      obtain ⟨t, ht, _⟩ := h2
      exact absurd ht (List.not_mem_nil t)
  | cons tup rest ih =>
      have htup := h1 tup (List.mem_cons_self _ _)
      cases hk : tup.getLast? with
      | none => rw [hk] at htup; exact Bool.noConfusion htup
      | some k =>
          cases hek : alookup m k with
          | none => simp [dispatchLoop, lastElem, hk, dictGet, hek]
          | some ests =>
              have h2' : ∃ t ∈ rest, t.getLast?.bind (fun k2 => alookup m k2) = none := by
                obtain ⟨t, ht, hnone⟩ := h2
                rcases List.mem_cons.mp ht with rfl | htr
                · rw [hk] at hnone; simp [hek] at hnone
                · exact ⟨t, htr, hnone⟩
              have hrest := ih (fun t ht => h1 t (List.mem_cons_of_mem _ ht)) h2'
              simp [dispatchLoop, lastElem, hk, dictGet, hek, hrest]

/-- Claim C5: when some non-empty data tuple has a case key absent from
the case-to-estimator mapping, the dispatch primitive fails with the
KeyError of the dict lookup and returns no sentinel or partial result,
and the failure propagates through base_predict and fit_estimators,
which dispatch through the primitive. -/
theorem dispatch_missing_case_key {α β ε ρ ν M κc σ μ υ : Type _}
    [DecidableEq β] [DecidableEq ν] [DecidableEq κc]
    (f : α → List β → ε → ρ) (a : α)
    (E : Externals β ε ν M) (fe : υ → List β → ε → κc × Option σ × μ)
    (data : List (List β)) (estimator_cases : List (β × List ε))
    (n : Nat) (fp ft : Bool) (cols : List ν) (asdf : Bool) (y : υ)
    (nj : Int) (v : Bool)
    (h1 : ∀ tup ∈ data, tup.getLast?.isSome = true)
    (h2 : ∃ tup ∈ data, tup.getLast?.bind (fun k => alookup estimator_cases k) = none) :
    _parallel_estimation f data estimator_cases a nj v = .error .keyError ∧
    base_predict E data estimator_cases n fp ft cols asdf nj v = .error .keyError ∧
    fit_estimators fe data y estimator_cases nj v = .error .keyError := by
  refine ⟨dispatchLoop_keyError f a estimator_cases data h1 h2, ?_, ?_⟩
  · have hbp := dispatchLoop_keyError
      (fun (_ : Unit) tup est => applyPredFn E (base_predict_function fp ft) tup est)
      () estimator_cases data h1 h2
    unfold base_predict _parallel_estimation
    rw [hbp]
  · have hfe := dispatchLoop_keyError (fun yy tup est => fe yy tup est)
      y estimator_cases data h1 h2
    unfold fit_estimators _parallel_estimation
    rw [hfe]

/-- Witness for dispatch_missing_case_key at a concrete input: the single
tuple [1] has case key 1, absent from a mapping that only covers key 2,
so all three entry points fail with KeyError. -/
theorem dispatch_missing_case_key_witness :
    _parallel_estimation (fun (a : Nat) (tup : List Nat) (e : Nat) => (a, tup, e))
        [[1]] [(2, [5])] 0 (-1) false = .error .keyError ∧
    base_predict
        (⟨fun _ e => [e], fun _ e => [e], fun _ e => [e], fun _ _ _ _ => (), fun m0 _ => m0⟩ :
          Externals Nat Nat Nat Unit)
        [[1]] [(2, [5])] 3 true true [5] false (-1) false = .error .keyError ∧
    fit_estimators
        (fun (yy : Nat) (tup : List Nat) (est : Nat) =>
          ((0, some est, est + yy) : Nat × Option Nat × Nat))
        [[1]] 7 [(2, [5])] (-1) false = .error .keyError :=
  dispatch_missing_case_key _ 0
    (⟨fun _ e => [e], fun _ e => [e], fun _ e => [e], fun _ _ _ _ => (), fun m0 _ => m0⟩ :
      Externals Nat Nat Nat Unit)
    (fun (yy : Nat) (tup : List Nat) (est : Nat) =>
      ((0, some est, est + yy) : Nat × Option Nat × Nat))
    [[1]] [(2, [5])] 3 true true [5] false 7 (-1) false (by decide) (by decide)

end MLens
